import Mathlib

/-!
Verification of the file-safety validation pipeline and result-shaping logic
of the mcp-pdf-modesty tool server (src/index.ts).

The TypeScript source is shallowly embedded: pure helper functions become
Lean functions, file-system effects become an explicit record of query
functions, thrown exceptions become `Except String`, and the external
Node.js builtins (`path.normalize`, `path.resolve`) are abstracted as
function parameters.  Concrete POSIX models of those builtins are defined
for use at concrete inputs.
-/

namespace PdfServer

/-- ASCII lower-casing of a single character; model of the behaviour of the
JavaScript `toLowerCase` on the ASCII range (all strings compared in the
source are ASCII). -/
def lcChar (c : Char) : Char :=
  if 'A' ≤ c ∧ c ≤ 'Z' then Char.ofNat (c.toNat + 32) else c

/-- Model of the JavaScript `String.prototype.toLowerCase` on ASCII data. -/
def lowerStr (s : String) : String :=
  String.mk (s.toList.map lcChar)

/-- Model of the JavaScript `String.prototype.startsWith`: `pre` is a prefix
of `s`. -/
def jsStartsWith (s pre : String) : Bool :=
  pre.toList.isPrefixOf s.toList

/-- Substring search on character lists (helper for `jsIncludes`). -/
def hasSubList (pat : List Char) : List Char → Bool
  | [] => pat.isPrefixOf []
  | c :: rest => pat.isPrefixOf (c :: rest) || hasSubList pat rest

/-- Model of the JavaScript `String.prototype.includes`: `sub` occurs as a
contiguous substring of `s`. -/
def jsIncludes (s sub : String) : Bool :=
  hasSubList sub.toList s.toList

/-- Whitespace predicate used by `trimStr` (space, tab, CR, LF — the
whitespace characters that occur in the strings this program builds). -/
def isWS (c : Char) : Bool :=
  c = ' ' ∨ c = '\t' ∨ c = '\r' ∨ c = '\n'

/-- Model of the JavaScript `String.prototype.trim`: strip leading and
trailing whitespace. -/
def trimStr (s : String) : String :=
  String.mk (((s.toList.dropWhile isWS).reverse.dropWhile isWS).reverse)

/-- Model of the JavaScript `||` default on an optional string: an absent or
empty (falsy) string is replaced by the default. -/
def jsOr (o : Option String) (dflt : String) : String :=
  match o with
  | some s => if s = "" then dflt else s
  | none => dflt

/-! ### POSIX path model

The source calls Node's `path.normalize` and `path.resolve`.  These are
external builtins, so `isPathSafe` and `validatePDFFile` below take them as
parameters; the following definitions are concrete POSIX models used to
instantiate those parameters at concrete inputs. -/

/-- Split a character list on `/` into segments. -/
def splitSlash : List Char → List (List Char)
  | [] => [[]]
  | c :: rest =>
    match splitSlash rest with
    | [] => [[]]
    | seg :: segs => if c = '/' then [] :: seg :: segs else (c :: seg) :: segs

/-- Resolution of `.` and `..` segments of an absolute path: `.` and empty
segments are dropped, `..` pops the previous segment (and is dropped at the
root).  The accumulator holds the already-resolved segments in reverse. -/
def resolveStack (acc : List (List Char)) : List (List Char) → List (List Char)
  | [] => acc.reverse
  | seg :: rest =>
    if seg = [] ∨ seg = ['.'] then resolveStack acc rest
    else if seg = ['.', '.'] then resolveStack acc.tail rest
    else resolveStack (seg :: acc) rest

/-- Normalisation of the segments of a relative path: `.` and empty segments
are dropped, `..` pops the previous segment unless the path so far is made
of leading `..` segments, which are kept. -/
def normStack (acc : List (List Char)) : List (List Char) → List (List Char)
  | [] => acc.reverse
  | seg :: rest =>
    if seg = [] ∨ seg = ['.'] then normStack acc rest
    else if seg = ['.', '.'] then
      match acc with
      | [] => normStack [seg] rest
      | top :: acctl =>
        if top = ['.', '.'] then normStack (seg :: top :: acctl) rest
        else normStack acctl rest
    else normStack (seg :: acc) rest

/-- Join segments with `/` separators. -/
def joinSlash : List (List Char) → List Char
  | [] => []
  | [seg] => seg
  | seg :: rest => seg ++ '/' :: joinSlash rest

/-- Model of Node's `path.normalize` for POSIX paths. -/
def posixNormalize (p : String) : String :=
  let cs := p.toList
  if cs.head? = some '/' then
    String.mk ('/' :: joinSlash (resolveStack [] (splitSlash cs)))
  else
    match normStack [] (splitSlash cs) with
    | [] => "."
    | segs => String.mk (joinSlash segs)

/-- Model of Node's `path.resolve` for POSIX paths under current working
directory `cwd` (itself an absolute path). -/
def posixResolve (cwd : String) (p : String) : String :=
  let full := if p.toList.head? = some '/' then p.toList
              else cwd.toList ++ '/' :: p.toList
  String.mk ('/' :: joinSlash (resolveStack [] (splitSlash full)))

/-! ### Path safety (src/index.ts lines 38-69) -/

/-- The fixed deny-list of system path prefixes (`dangerousPaths` in the
source). -/
def dangerousPaths : List String :=
  ["/etc", "/usr", "/bin", "/sbin", "/dev", "/proc", "/sys",
   "C:\\Windows", "C:\\Program Files"]

/-- Embedding of `isPathSafe` (src/index.ts lines 38-69).  `norm` and `res`
are Node's `path.normalize` and `path.resolve`, abstracted as parameters
(`res` receives the already-normalized path, as in the source). -/
def isPathSafe (norm res : String → String) (filePath : String) : Bool :=
  let normalizedPath := norm filePath
  let resolvedPath := res normalizedPath
  if jsIncludes normalizedPath ".." || jsIncludes normalizedPath "~" then
    false
  else
    let lowerPath := lowerStr resolvedPath
    if dangerousPaths.any (fun dangerous => jsStartsWith lowerPath (lowerStr dangerous)) then
      false
    else
      true

/-! ### File validation (src/index.ts lines 71-115) -/

/-- `MAX_FILE_SIZE` from the source: 50 MiB. -/
def MAX_FILE_SIZE : Nat := 50 * 1024 * 1024

/-- `ALLOWED_EXTENSIONS` from the source. -/
def ALLOWED_EXTENSIONS : List String := [".pdf"]

/-- `PDF_MAGIC_BYTES` from the source: the bytes of `%PDF`. -/
def PDF_MAGIC_BYTES : List Nat := [0x25, 0x50, 0x44, 0x46]

/-- The fields of an `fs.Stats` record that the validator consults. -/
structure Stats where
  size : Nat
  isFile : Bool
deriving DecidableEq

/-- The file-system queries performed by the validator, abstracted as pure
functions of the (resolved) path.  `readMagic` models `fs.open` followed by
reading 4 bytes into a zero-initialised buffer and returns the buffer
contents, or the message of the error thrown by open/read. -/
structure FSModel where
  accessOk : String → Bool
  statSync : String → Stats
  readMagic : String → Except String (List Nat)

/-- Embedding of the extension computation
`filePath.toLowerCase().substring(filePath.lastIndexOf("."))`: the index of
the last `.` is taken on the original string, the suffix on the lower-cased
string; a missing `.` gives `lastIndexOf = -1` and `substring(-1)` clamps to
0, yielding the whole lower-cased string. -/
def jsExtension (filePath : String) : String :=
  let lower := lowerStr filePath
  match (filePath.toList.reverse).findIdx? (· = '.') with
  | some i => String.mk (lower.toList.drop (filePath.toList.length - 1 - i))
  | none => lower

/-- The magic-byte comparison of the validator: given the outcome of the
4-byte read, fail with the thrown error, or with the missing-signature
message when the buffer differs from `%PDF`. -/
def magicByteResult (readOutcome : Except String (List Nat)) : Except String Unit :=
  match readOutcome with
  | .error e => .error e
  | .ok buffer =>
    if buffer = PDF_MAGIC_BYTES then .ok ()
    else .error "Invalid PDF file: missing PDF signature"

/-- Embedding of `validatePDFFile` (src/index.ts lines 71-115).  Thrown
`Error`s become `Except.error` carrying the message. -/
def validatePDFFile (norm res : String → String) (fs : FSModel)
    (filePath : String) : Except String Unit :=
  if ¬ isPathSafe norm res filePath then
    .error "Invalid file path: potential security risk detected"
  else
    let resolvedPath := res filePath
    if ¬ fs.accessOk resolvedPath then
      .error ("File not found: " ++ filePath)
    else
      let ext := jsExtension filePath
      if ¬ ALLOWED_EXTENSIONS.contains ext then
        .error ("Invalid file type. Only PDF files are allowed. Got: " ++ ext)
      else
        let stats := fs.statSync resolvedPath
        if stats.size > MAX_FILE_SIZE then
          .error "File too large. Maximum size is 50MB"
        else if ¬ stats.isFile then
          .error "Path must point to a file, not a directory"
        else
          magicByteResult (fs.readMagic resolvedPath)

/-! ### decodeURIComponent model

The source calls the JavaScript builtin `decodeURIComponent` on each text
run.  It is modelled here: percent-escapes are decoded to bytes, the byte
sequence is decoded as strict UTF-8, and any malformed escape or invalid
byte sequence yields the `URIError` message `URI malformed`. -/

/-- Value of a hexadecimal digit character, if it is one. -/
def hexDigitVal (c : Char) : Option Nat :=
  if '0' ≤ c ∧ c ≤ '9' then some (c.toNat - 48)
  else if 'A' ≤ c ∧ c ≤ 'F' then some (c.toNat - 55)
  else if 'a' ≤ c ∧ c ≤ 'f' then some (c.toNat - 87)
  else none

/-- A token of a percent-encoded string: a decoded escape byte, or a literal
character passed through unchanged. -/
inductive UriTok where
  | byte (b : Nat)
  | lit (c : Char)
deriving DecidableEq

/-- Tokenise a percent-encoded string: each `%HH` becomes a byte, anything
else is literal; a `%` not followed by two hex digits is malformed. -/
def uriToks : List Char → Option (List UriTok)
  | [] => some []
  | '%' :: h1 :: h2 :: rest =>
    match hexDigitVal h1, hexDigitVal h2 with
    | some a, some b => (UriTok.byte (16 * a + b) :: ·) <$> uriToks rest
    | _, _ => none
  | '%' :: _ => none
  | c :: rest => (UriTok.lit c :: ·) <$> uriToks rest

/-- Strict UTF-8 decoding of the token stream: escape bytes must form valid
UTF-8 sequences (no overlong forms, no surrogates, max U+10FFFF); literal
characters pass through. -/
def utf8DecodeToks : List UriTok → Option (List Char)
  | [] => some []
  | UriTok.lit c :: rest => (c :: ·) <$> utf8DecodeToks rest
  | UriTok.byte b :: rest =>
    if b < 0x80 then
      (Char.ofNat b :: ·) <$> utf8DecodeToks rest
    else if 0xC2 ≤ b ∧ b ≤ 0xDF then
      match rest with
      | UriTok.byte b1 :: rest2 =>
        if 0x80 ≤ b1 ∧ b1 ≤ 0xBF then
          (Char.ofNat ((b - 0xC0) * 64 + (b1 - 0x80)) :: ·) <$> utf8DecodeToks rest2
        else none
      | _ => none
    else if 0xE0 ≤ b ∧ b ≤ 0xEF then
      match rest with
      | UriTok.byte b1 :: UriTok.byte b2 :: rest2 =>
        let lo1 := if b = 0xE0 then 0xA0 else 0x80
        let hi1 := if b = 0xED then 0x9F else 0xBF
        if lo1 ≤ b1 ∧ b1 ≤ hi1 ∧ 0x80 ≤ b2 ∧ b2 ≤ 0xBF then
          (Char.ofNat ((b - 0xE0) * 4096 + (b1 - 0x80) * 64 + (b2 - 0x80)) :: ·) <$>
            utf8DecodeToks rest2
        else none
      | _ => none
    else if 0xF0 ≤ b ∧ b ≤ 0xF4 then
      match rest with
      | UriTok.byte b1 :: UriTok.byte b2 :: UriTok.byte b3 :: rest2 =>
        let lo1 := if b = 0xF0 then 0x90 else 0x80
        let hi1 := if b = 0xF4 then 0x8F else 0xBF
        if lo1 ≤ b1 ∧ b1 ≤ hi1 ∧ 0x80 ≤ b2 ∧ b2 ≤ 0xBF ∧ 0x80 ≤ b3 ∧ b3 ≤ 0xBF then
          (Char.ofNat ((b - 0xF0) * 262144 + (b1 - 0x80) * 4096 + (b2 - 0x80) * 64 + (b3 - 0x80)) :: ·) <$>
            utf8DecodeToks rest2
        else none
      | _ => none
    else none

/-- Model of the JavaScript builtin `decodeURIComponent`: decode
percent-escapes and the UTF-8 byte sequences they form; throw
`URIError: URI malformed` on any malformed input. -/
def decodeURIComponent (s : String) : Except String String :=
  match uriToks s.toList with
  | none => .error "URI malformed"
  | some tks =>
    match utf8DecodeToks tks with
    | none => .error "URI malformed"
    | some cs => .ok (String.mk cs)

/-! ### Parsed-document data model

Only the parts of the pdf2json output tree that the extraction code reads
are modelled; every field the code guards with a truthiness or optional
chain is an `Option`. -/

/-- A text run (`R` entry): `T` carries the percent-encoded content. -/
structure TextRun where
  T : Option String
deriving DecidableEq

/-- A text item of a page: `R` is its run list. -/
structure TextItem where
  R : Option (List TextRun)
deriving DecidableEq

/-- A form field identifier record (`field.id`). -/
structure FieldId where
  Id : Option String
deriving DecidableEq

/-- A form field type record (`field.T`). -/
structure FieldType where
  Name : Option String
deriving DecidableEq

/-- A form field of a page. -/
structure FormField where
  id : Option FieldId
  T : Option FieldType
deriving DecidableEq

/-- A page of the parsed document: its text items and form fields. -/
structure Page where
  Texts : Option (List TextItem)
  Fields : Option (List FormField)
deriving DecidableEq

/-- The document metadata record (`Meta`). -/
structure PDFMeta where
  Title : Option String
  Author : Option String
  Subject : Option String
  Creator : Option String
  Producer : Option String
  CreationDate : Option String
  ModDate : Option String
deriving DecidableEq

/-- The parsed document delivered by the engine (`PDFData`). -/
structure PDFData where
  Pages : Option (List Page)
  Meta : Option PDFMeta
deriving DecidableEq

/-! ### Text extraction (src/index.ts lines 204-226) -/

/-- The run loop of `extractText`: for each run whose `T` is truthy, append
the URI-decoded content and a space; a decoding failure propagates as the
thrown exception. -/
def extractRuns : List TextRun → Except String String
  | [] => .ok ""
  | run :: rest =>
    match run.T with
    | some t =>
      if t = "" then extractRuns rest
      else
        match decodeURIComponent t with
        | .error e => .error e
        | .ok d =>
          match extractRuns rest with
          | .error e => .error e
          | .ok s => .ok (d ++ " " ++ s)
    | none => extractRuns rest

/-- The text-item loop of `extractText`: items without an `R` list
contribute nothing. -/
def extractItems : List TextItem → Except String String
  | [] => .ok ""
  | item :: rest =>
    match item.R with
    | some runs =>
      match extractRuns runs with
      | .error e => .error e
      | .ok s =>
        match extractItems rest with
        | .error e => .error e
        | .ok u => .ok (s ++ u)
    | none => extractItems rest

/-- The page loop of `extractText`: after a page with a `Texts` list, a
newline is appended; pages without one contribute nothing (and no
newline). -/
def extractPages : List Page → Except String String
  | [] => .ok ""
  | page :: rest =>
    match page.Texts with
    | some texts =>
      match extractItems texts with
      | .error e => .error e
      | .ok s =>
        match extractPages rest with
        | .error e => .error e
        | .ok u => .ok (s ++ "\n" ++ u)
    | none => extractPages rest

/-- Embedding of `extractText` (src/index.ts lines 204-226): concatenate the
decoded runs and trim the final result; a `decodeURIComponent` failure
propagates as an exception. -/
def extractText (pdfData : PDFData) : Except String String :=
  match (match pdfData.Pages with
         | some pages => extractPages pages
         | none => .ok "") with
  | .error e => .error e
  | .ok text => .ok (trimStr text)

/-! ### Form-field extraction (src/index.ts lines 229-250) -/

/-- The simplified form-field record produced by the server
(`FormFieldInfo`). -/
structure FormFieldInfo where
  name : String
  type : String
  value : String
  options : List String
deriving DecidableEq

/-- Embedding of `extractFormFields` (src/index.ts lines 229-250): one
record per field, in page order then field order; `field.id?.Id || "unnamed"`
and `field.T?.Name || "unknown"` become `jsOr` over the optional chains. -/
def extractFormFields (pdfData : PDFData) : List FormFieldInfo :=
  match pdfData.Pages with
  | none => []
  | some pages =>
    pages.flatMap fun page =>
      match page.Fields with
      | none => []
      | some fields =>
        fields.map fun field =>
          { name := jsOr (field.id.bind (·.Id)) "unnamed"
            type := jsOr (field.T.bind (·.Name)) "unknown"
            value := ""
            options := [] }

/-! ### Result shaping (src/index.ts lines 270-296) -/

/-- The metadata block of the `json` response. -/
structure JsonMetadata where
  title : String
  author : String
  subject : String
  creator : String
  producer : String
  creationDate : String
  modificationDate : String
deriving DecidableEq

/-- The `json` response shape (`ExtractTextJSONResponse`). -/
structure JsonResponse where
  pages : Nat
  text : String
  metadata : JsonMetadata
deriving DecidableEq

/-- The value of `result` in the `extract_text` handler: a plain string, the
structured json response, or the raw document. -/
inductive ExtractionResult where
  | str (s : String)
  | json (r : JsonResponse)
  | detailed (d : PDFData)
deriving DecidableEq

/-- Embedding of the `switch (format)` statement of the `extract_text`
handler (src/index.ts lines 272-296); `pdfData.Pages?.length || 0` becomes a
match on the optional page list, and `String(pdfData.Meta?.X || "")` becomes
`jsOr` over the optional chain.  A `decodeURIComponent` failure inside
`extractText` propagates as an exception. -/
def shapeResult (pdfData : PDFData) (format : String) : Except String ExtractionResult :=
  if format = "text" then
    match extractText pdfData with
    | .error e => .error e
    | .ok s => .ok (.str s)
  else if format = "json" then
    match extractText pdfData with
    | .error e => .error e
    | .ok s =>
      .ok (.json
        { pages := match pdfData.Pages with
                   | some pages => pages.length
                   | none => 0
          text := s
          metadata :=
            { title := jsOr (pdfData.Meta.bind (·.Title)) ""
              author := jsOr (pdfData.Meta.bind (·.Author)) ""
              subject := jsOr (pdfData.Meta.bind (·.Subject)) ""
              creator := jsOr (pdfData.Meta.bind (·.Creator)) ""
              producer := jsOr (pdfData.Meta.bind (·.Producer)) ""
              creationDate := jsOr (pdfData.Meta.bind (·.CreationDate)) ""
              modificationDate := jsOr (pdfData.Meta.bind (·.ModDate)) "" } })
  else if format = "detailed" then
    .ok (.detailed pdfData)
  else
    match extractText pdfData with
    | .error e => .error e
    | .ok s => .ok (.str s)

/-! ### Tool dispatch (src/index.ts lines 253-348) -/

/-- One entry of the response `content` array. -/
structure ContentItem where
  type : String
  text : String
deriving DecidableEq

/-- The response envelope `{ content, isError }`; a success response carries
no `isError` property in the source, modelled as `isError = false`. -/
structure ToolEnvelope where
  content : List ContentItem
  isError : Bool
deriving DecidableEq

/-- The argument object of a call: `path`, and the optional `format` whose
destructuring default is `"text"`. -/
structure CallArgs where
  path : String
  format : Option String
deriving DecidableEq

/-- Embedding of `typeof result === "string" ? result : JSON.stringify(result,
null, 2)`; the builtin `JSON.stringify` is abstracted as the parameter
`sfy`. -/
def renderResult (sfy : ExtractionResult → String) : ExtractionResult → String
  | .str s => s
  | r => sfy r

/-- The body of the `try` block of the `CallToolRequestSchema` handler
(src/index.ts lines 256-335): route on the tool name, validate, parse,
shape, and build the success envelope; every thrown condition is an
`Except.error` carrying the message.  `parse` abstracts awaiting `parsePDF`
(the engine plus the 30-second timeout), `sfyResult` and `sfyFields`
abstract `JSON.stringify`. -/
def dispatchInner (norm res : String → String) (fs : FSModel)
    (parse : String → Except String PDFData)
    (sfyResult : ExtractionResult → String)
    (sfyFields : List FormFieldInfo → String)
    (name : String) (args : CallArgs) : Except String ToolEnvelope :=
  if name = "extract_text" then
    match validatePDFFile norm res fs args.path with
    | .error e => .error e
    | .ok _ =>
      let resolvedPath := res args.path
      match parse resolvedPath with
      | .error e => .error e
      | .ok pdfData =>
        match shapeResult pdfData (args.format.getD "text") with
        | .error e => .error e
        | .ok result =>
          .ok { content := [{ type := "text", text := renderResult sfyResult result }]
                isError := false }
  else if name = "extract_form_fields" then
    match validatePDFFile norm res fs args.path with
    | .error e => .error e
    | .ok _ =>
      let resolvedPath := res args.path
      match parse resolvedPath with
      | .error e => .error e
      | .ok pdfData =>
        let fields := extractFormFields pdfData
        .ok { content := [{ type := "text", text := sfyFields fields }]
              isError := false }
  else
    .error ("Unknown tool: " ++ name)

/-- Embedding of the whole `CallToolRequestSchema` handler: the `catch`
block converts any thrown condition into the uniform error envelope
`{ content: [{ type: "text", text: "Error: " + message }], isError: true }`,
so the handler always returns an envelope. -/
def handleCallTool (norm res : String → String) (fs : FSModel)
    (parse : String → Except String PDFData)
    (sfyResult : ExtractionResult → String)
    (sfyFields : List FormFieldInfo → String)
    (name : String) (args : CallArgs) : ToolEnvelope :=
  match dispatchInner norm res fs parse sfyResult sfyFields name args with
  | .ok env => env
  | .error msg =>
    { content := [{ type := "text", text := "Error: " ++ msg }]
      isError := true }

/-! ### File-handle trace model of the magic-byte check
(src/index.ts lines 104-114) -/

/-- A file-handle operation performed during the signature check. -/
inductive FOp where
  | fopen
  | fread
  | fclose
deriving DecidableEq

/-- Trace model of the signature check: `await fs.open` records `fopen`;
the `try` block records `fread` and produces the check's outcome (the read's
thrown error, the missing-signature error, or success); the `finally` block
appends `fclose` to whatever trace the body produced, regardless of the
body's outcome — the structural mirror of `try { read; compare } finally
{ close }`. -/
def magicCheckOps (readOutcome : Except String (List Nat)) :
    Except String Unit × List FOp :=
  let opened : List FOp := [FOp.fopen]
  let body : Except String Unit × List FOp :=
    match readOutcome with
    | .error e => (.error e, opened ++ [FOp.fread])
    | .ok buffer =>
      if buffer = PDF_MAGIC_BYTES then (.ok (), opened ++ [FOp.fread])
      else (.error "Invalid PDF file: missing PDF signature", opened ++ [FOp.fread])
  (body.1, body.2 ++ [FOp.fclose])

/-! ### Specification-side definitions -/

/-- The validator's six checks as a list, in the order the source performs
them — path safety, existence, extension, size, regular-file, magic bytes —
each entry `none` (pass) or `some message` (fail). -/
def validationChecks (norm res : String → String) (fs : FSModel)
    (filePath : String) : List (Option String) :=
  [ if isPathSafe norm res filePath then none
    else some "Invalid file path: potential security risk detected",
    if fs.accessOk (res filePath) then none
    else some ("File not found: " ++ filePath),
    if ALLOWED_EXTENSIONS.contains (jsExtension filePath) then none
    else some ("Invalid file type. Only PDF files are allowed. Got: " ++ jsExtension filePath),
    if (fs.statSync (res filePath)).size > MAX_FILE_SIZE then
      some "File too large. Maximum size is 50MB"
    else none,
    if (fs.statSync (res filePath)).isFile then none
    else some "Path must point to a file, not a directory",
    match fs.readMagic (res filePath) with
    | .error e => some e
    | .ok buffer =>
      if buffer = PDF_MAGIC_BYTES then none
      else some "Invalid PDF file: missing PDF signature" ]

/-- First-failure-wins semantics over a check list: the first `some message`
is the reported failure, and all checks passing is success. -/
def firstFailure : List (Option String) → Except String Unit
  | [] => .ok ()
  | none :: rest => firstFailure rest
  | some m :: _ => .error m

/-- Definition following the spec's words for field extraction, to be
compared with `extractFormFields`: one record per form field, pages in
document order and fields within each page in order; `name` is the field's
identifier, or `"unnamed"` when the identifier is absent (absent meaning
missing or empty, the JavaScript falsy cases of the optional chain);
likewise `type` with `"unknown"`; `value` and `options` always empty. -/
def specFormFields (pdfData : PDFData) : List FormFieldInfo :=
  (pdfData.Pages.getD []).flatMap fun page =>
    (page.Fields.getD []).map fun field =>
      { name := match field.id.bind (·.Id) with
                | some n => if n = "" then "unnamed" else n
                | none => "unnamed"
        type := match field.T.bind (·.Name) with
                | some n => if n = "" then "unknown" else n
                | none => "unknown"
        value := ""
        options := [] }

/-! ### Concrete fixtures -/

/-- A file system on which every check passes: the file exists, is a regular
1 MiB file, and starts with the `%PDF` signature. -/
def fsStub : FSModel :=
  { accessOk := fun _ => true
    statSync := fun _ => { size := 1024 * 1024, isFile := true }
    readMagic := fun _ => .ok PDF_MAGIC_BYTES }

/-- A file system whose path names a directory whose reported stat size is
60 MiB (over the limit): exists, not a regular file. -/
def fsBigDir : FSModel :=
  { accessOk := fun _ => true
    statSync := fun _ => { size := 60 * 1024 * 1024, isFile := false }
    readMagic := fun _ => .ok PDF_MAGIC_BYTES }

/-- A stub parse outcome used to instantiate the dispatcher. -/
def parseStub : String → Except String PDFData := fun _ => .ok { Pages := none, Meta := none }

/-- A stub for the abstracted `JSON.stringify` on extraction results. -/
def sfyResultStub : ExtractionResult → String := fun _ => ""

/-- A stub for the abstracted `JSON.stringify` on field lists. -/
def sfyFieldsStub : List FormFieldInfo → String := fun _ => ""

/-- The spec's example document: two pages, the first with the single run
`Hello%20World`, the second with the single run `This%20is%20a%20test`. -/
def twoPageDoc : PDFData :=
  { Pages := some
      [ { Texts := some [{ R := some [{ T := some "Hello%20World" }] }], Fields := none },
        { Texts := some [{ R := some [{ T := some "This%20is%20a%20test" }] }], Fields := none } ]
    Meta := none }

/-- A document with one page holding one form field of id `field1` and no
declared type. -/
def fieldDoc : PDFData :=
  { Pages := some
      [ { Texts := none
          Fields := some [{ id := some { Id := some "field1" }, T := none }] } ]
    Meta := none }

/-- A document whose single text run is not valid percent-encoding. -/
def badRunDoc : PDFData :=
  { Pages := some [{ Texts := some [{ R := some [{ T := some "%ZZ" }] }], Fields := none }]
    Meta := none }

/-! ## Theorems -/

/-- Claim C2: for every path whose normalized form contains the substring
`..` or the character `~`, `isPathSafe` returns false; and for every path
whose resolved absolute form begins, case-insensitively, with one of the
fixed deny-list prefixes, `isPathSafe` returns false. -/
theorem isPathSafe_rejections (norm res : String → String) (p : String) :
    ((jsIncludes (norm p) ".." = true ∨ jsIncludes (norm p) "~" = true) →
      isPathSafe norm res p = false) ∧
    ((∃ d ∈ dangerousPaths, jsStartsWith (lowerStr (res (norm p))) (lowerStr d) = true) →
      isPathSafe norm res p = false) := by
  constructor
  · intro h
    have hor : (jsIncludes (norm p) ".." || jsIncludes (norm p) "~") = true := by
      rcases h with h | h <;> simp [h]
    simp [isPathSafe, hor]
  · rintro ⟨d, hd, hs⟩
    by_cases hor : (jsIncludes (norm p) ".." || jsIncludes (norm p) "~") = true
    · simp [isPathSafe, hor]
    · have hany : dangerousPaths.any
          (fun dangerous => jsStartsWith (lowerStr (res (norm p))) (lowerStr dangerous)) = true :=
        List.any_eq_true.mpr ⟨d, hd, hs⟩
      simp [isPathSafe, hor, hany]

/-- Witness for C2: a traversal path and a path resolving under `/etc` are
both rejected, under the POSIX path model with working directory
`/home/user`. -/
theorem isPathSafe_rejections_witness :
    isPathSafe posixNormalize (posixResolve "/home/user") "../secret.pdf" = false ∧
    isPathSafe posixNormalize (posixResolve "/home/user") "/etc/passwd.pdf" = false :=
  ⟨(isPathSafe_rejections posixNormalize (posixResolve "/home/user") "../secret.pdf").1
      (Or.inl (by decide)),
   (isPathSafe_rejections posixNormalize (posixResolve "/home/user") "/etc/passwd.pdf").2
      ⟨"/etc", by decide, by decide⟩⟩

/-- Claim C7 (amended): `isPathSafe` returns true for a path whose
normalized form contains no `..` and no `~`, provided additionally that the
resolved absolute path does not begin, case-insensitively, with a
deny-listed prefix.  (The unamended claim — true for relative non-traversal
paths under every working directory — is refuted by
`isPathSafe_accepts_cex`.) -/
theorem isPathSafe_accepts (norm res : String → String) (p : String)
    (h1 : jsIncludes (norm p) ".." = false) (h2 : jsIncludes (norm p) "~" = false)
    (h3 : ∀ d ∈ dangerousPaths, jsStartsWith (lowerStr (res (norm p))) (lowerStr d) = false) :
    isPathSafe norm res p = true := by
  have hor : (jsIncludes (norm p) ".." || jsIncludes (norm p) "~") = false := by
    simp [h1, h2]
  have hany : dangerousPaths.any
      (fun dangerous => jsStartsWith (lowerStr (res (norm p))) (lowerStr dangerous)) = false := by
    simp only [List.any_eq_false]
    intro d hd
    simp [h3 d hd]
  simp [isPathSafe, hor, hany]

/-- Counterexample for C7 as stated: `doc.pdf` is relative (no leading
`/`), its normalized form contains no `..` and no `~`, and it carries the
ordinary extension `.pdf`, yet when the working directory is `/etc` the
path resolves to `/etc/doc.pdf` and `isPathSafe` returns false — so the
claim does not hold for every working directory. -/
theorem isPathSafe_accepts_cex :
    jsIncludes (posixNormalize "doc.pdf") ".." = false ∧
    jsIncludes (posixNormalize "doc.pdf") "~" = false ∧
    jsStartsWith "doc.pdf" "/" = false ∧
    jsExtension "doc.pdf" = ".pdf" ∧
    isPathSafe posixNormalize (posixResolve "/etc") "doc.pdf" = false := by
  decide

/-- Witness for C7 (amended): a relative non-traversal path under
`/home/user` is accepted. -/
theorem isPathSafe_accepts_witness :
    isPathSafe posixNormalize (posixResolve "/home/user") "documents/report.pdf" = true :=
  isPathSafe_accepts posixNormalize (posixResolve "/home/user") "documents/report.pdf"
    (by decide) (by decide) (by decide)

/-- Claim C1 (amended): `validatePDFFile` performs its checks sequentially
in the order path safety, existence, extension, size limit, regular-file,
magic bytes — size before regular-file — and stops at the first failing
check, reporting only that check's failure.  (The claimed order, with the
regular-file check before the size check, is refuted by
`validate_check_order_cex`.) -/
theorem validate_check_order (norm res : String → String) (fs : FSModel) (p : String) :
    validatePDFFile norm res fs p = firstFailure (validationChecks norm res fs p) := by
  by_cases h1 : isPathSafe norm res p
  · by_cases h2 : fs.accessOk (res p)
    · by_cases h3 : jsExtension p ∈ ALLOWED_EXTENSIONS
      · by_cases h4 : (fs.statSync (res p)).size > MAX_FILE_SIZE
        · simp [validatePDFFile, validationChecks, firstFailure, h1, h2, h3, h4]
        · by_cases h5 : (fs.statSync (res p)).isFile
          · cases h6 : fs.readMagic (res p) with
            | error e =>
              simp [validatePDFFile, validationChecks, firstFailure, magicByteResult,
                h1, h2, h3, h4, h5, h6]
            | ok buffer =>
              by_cases h7 : buffer = PDF_MAGIC_BYTES <;>
                simp [validatePDFFile, validationChecks, firstFailure, magicByteResult,
                  h1, h2, h3, h4, h5, h6, h7]
          · simp [validatePDFFile, validationChecks, firstFailure, h1, h2, h3, h4, h5]
      · simp [validatePDFFile, validationChecks, firstFailure, h1, h2, h3]
    · simp [validatePDFFile, validationChecks, firstFailure, h1, h2]
  · simp [validatePDFFile, validationChecks, firstFailure, h1]

/-- Counterexample for C1 as stated: a directory path (`isFile = false`)
that passes path safety, existence and extension, with stat size 60 MiB, is
reported as "too large" — the size check is consulted and fails before the
"is a directory" check is reached, contrary to the claimed order. -/
theorem validate_check_order_cex :
    (fsBigDir.statSync (posixResolve "/home/user" "bigdir.pdf")).isFile = false ∧
    validatePDFFile posixNormalize (posixResolve "/home/user") fsBigDir "bigdir.pdf" =
      .error "File too large. Maximum size is 50MB" ∧
    ("File too large. Maximum size is 50MB" : String) ≠
      "Path must point to a file, not a directory" :=
  ⟨rfl, rfl, by decide⟩

/-- Claim C3 (amended): shaping the spec's two-page example document with
format `text` produces exactly `"Hello World \nThis is a test"` — a single
newline between the pages (one newline is appended after each page and the
trailing space and newline are trimmed), not the two newlines the claim
states.  (The claim as stated is refuted by `extractText_two_pages_cex`.) -/
theorem extractText_two_pages :
    shapeResult twoPageDoc "text" = .ok (.str "Hello World \nThis is a test") := rfl

/-- Counterexample for C3 as stated: the produced string has a single
newline between the pages, and differs from the claimed string with two
newlines. -/
theorem extractText_two_pages_cex :
    shapeResult twoPageDoc "text" = .ok (.str "Hello World \nThis is a test") ∧
    ("Hello World \nThis is a test" : String) ≠ "Hello World \n\nThis is a test" :=
  ⟨rfl, by decide⟩

/-- Helper for C4: every success envelope built by the dispatcher carries
exactly one content item. -/
theorem dispatchInner_ok_one_item (norm res : String → String) (fs : FSModel)
    (parse : String → Except String PDFData)
    (sfyResult : ExtractionResult → String) (sfyFields : List FormFieldInfo → String)
    (name : String) (args : CallArgs) (env : ToolEnvelope)
    (h : dispatchInner norm res fs parse sfyResult sfyFields name args = .ok env) :
    env.content.length = 1 := by
  simp only [dispatchInner] at h
  split at h
  · split at h
    · exact Except.noConfusion h
    · split at h
      · exact Except.noConfusion h
      · split at h
        · exact Except.noConfusion h
        · cases h
          rfl
  · split at h
    · split at h
      · exact Except.noConfusion h
      · split at h
        · exact Except.noConfusion h
        · cases h
          rfl
    · exact Except.noConfusion h

/-- Claim C4: for every operation name and argument object the dispatcher
returns an envelope (it is a total function, so no exception propagates),
every invocation yields exactly one content item, and every failure of the
pipeline yields an envelope with `isError` true whose single content item's
text is `"Error: "` concatenated with the failure message. -/
theorem dispatcher_envelope (norm res : String → String) (fs : FSModel)
    (parse : String → Except String PDFData)
    (sfyResult : ExtractionResult → String) (sfyFields : List FormFieldInfo → String)
    (name : String) (args : CallArgs) :
    (handleCallTool norm res fs parse sfyResult sfyFields name args).content.length = 1 ∧
    (∀ msg, dispatchInner norm res fs parse sfyResult sfyFields name args = .error msg →
      handleCallTool norm res fs parse sfyResult sfyFields name args =
        { content := [{ type := "text", text := "Error: " ++ msg }], isError := true }) := by
  constructor
  · unfold handleCallTool
    cases h : dispatchInner norm res fs parse sfyResult sfyFields name args with
    | ok env => exact dispatchInner_ok_one_item norm res fs parse sfyResult sfyFields name args env h
    | error msg => rfl
  · intro msg h
    unfold handleCallTool
    rw [h]

/-- Witness for C4: the unknown operation name `bogus` produces the uniform
error envelope with exactly one content item. -/
theorem dispatcher_envelope_witness :
    (handleCallTool posixNormalize (posixResolve "/home/user") fsStub parseStub
        sfyResultStub sfyFieldsStub "bogus" { path := "doc.pdf", format := none }).content.length = 1 ∧
    handleCallTool posixNormalize (posixResolve "/home/user") fsStub parseStub
        sfyResultStub sfyFieldsStub "bogus" { path := "doc.pdf", format := none } =
      { content := [{ type := "text", text := "Error: Unknown tool: bogus" }], isError := true } :=
  ⟨(dispatcher_envelope posixNormalize (posixResolve "/home/user") fsStub parseStub
      sfyResultStub sfyFieldsStub "bogus" { path := "doc.pdf", format := none }).1,
   (dispatcher_envelope posixNormalize (posixResolve "/home/user") fsStub parseStub
      sfyResultStub sfyFieldsStub "bogus" { path := "doc.pdf", format := none }).2
      "Unknown tool: bogus" rfl⟩

/-- Claim C5: `extractFormFields` produces one record per form field,
iterating pages in document order and fields within each page in order,
with `name` the field identifier or `"unnamed"` when absent, `type` the
field type name or `"unknown"` when absent, and `value` and `options`
always empty; the concrete one-field example yields exactly the claimed
record. -/
theorem extractFormFields_spec :
    (∀ pdfData : PDFData, extractFormFields pdfData = specFormFields pdfData) ∧
    extractFormFields fieldDoc =
      [{ name := "field1", type := "unknown", value := "", options := [] }] := by
  constructor
  · intro pdfData
    obtain ⟨pagesOpt, meta⟩ := pdfData
    cases pagesOpt with
    | none => rfl
    | some pages =>
      show pages.flatMap _ = pages.flatMap _
      refine congrArg pages.flatMap (funext fun page => ?_)
      cases hF : page.Fields with
      | none => rfl
      | some fields => rfl
  · rfl

/-- Claim C6: shaping a document with any format value other than `text`,
`json` or `detailed` produces exactly the same result as shaping it with
`text`. -/
theorem shapeResult_fallback (pdfData : PDFData) (format : String)
    (h : format ∉ (["text", "json", "detailed"] : List String)) :
    shapeResult pdfData format = shapeResult pdfData "text" := by
  have h1 : format ≠ "text" := fun e => h (by simp [e])
  have h2 : format ≠ "json" := fun e => h (by simp [e])
  have h3 : format ≠ "detailed" := fun e => h (by simp [e])
  simp [shapeResult, h1, h2, h3]

/-- Witness for C6: the unrecognized format `xml` behaves as `text` on the
empty document. -/
theorem shapeResult_fallback_witness :
    shapeResult { Pages := none, Meta := none } "xml" =
      shapeResult { Pages := none, Meta := none } "text" :=
  shapeResult_fallback { Pages := none, Meta := none } "xml" (by decide)

/-- Claim C9: the file handle opened for the magic-byte check is released on
every exit path — signature match, signature mismatch, and a throwing read:
the operation trace always ends with the close, and the check's outcome is
the one the validator reports. -/
theorem magicCheck_releases_handle (readOutcome : Except String (List Nat)) :
    (magicCheckOps readOutcome).2.getLast? = some FOp.fclose ∧
    (magicCheckOps readOutcome).1 = magicByteResult readOutcome := by
  cases readOutcome with
  | error e => exact ⟨rfl, rfl⟩
  | ok buffer =>
    by_cases h : buffer = PDF_MAGIC_BYTES <;>
      simp [magicCheckOps, magicByteResult, h]

/-- Claim C10: on a document whose text run `%ZZ` is not valid
percent-encoding, text extraction raises (`decodeURIComponent` throws `URI
malformed`) rather than returning a string, and the dispatcher converts the
raised condition into the uniform error envelope with `isError` true. -/
theorem extractText_not_total :
    extractText badRunDoc = .error "URI malformed" ∧
    handleCallTool posixNormalize (posixResolve "/home/user") fsStub (fun _ => .ok badRunDoc)
        sfyResultStub sfyFieldsStub "extract_text" { path := "doc.pdf", format := none } =
      { content := [{ type := "text", text := "Error: URI malformed" }], isError := true } :=
  ⟨rfl, rfl⟩

end PdfServer
